import Mathlib

/- A shallow embedding of the span-tree construction core of apollo-opencensus:
   the path codec and span registry of src/context.ts, and the request/field
   span lifecycle of src/index.ts.  Spans are modelled by numeric handles, the
   tracer by a counter of fresh handles, and thrown exceptions by Except. -/

namespace ApolloOC

/-- A step key in a graphql ResponsePath: either a field name or an array index. -/
inductive PathKey where
  | name (s : String)
  | index (i : Nat)
deriving DecidableEq

/-- A graphql ResponsePath node: its key, the typename recorded on the node, and
the link to the previous node (absent at the root of the chain). -/
inductive ResponsePath where
  | root (key : PathKey) (typename : String)
  | child (key : PathKey) (typename : String) (prev : ResponsePath)
deriving DecidableEq

/-- The key of the final step of the chain. -/
def ResponsePath.key : ResponsePath → PathKey
  | .root k _ => k
  | .child k _ _ => k

/-- The prev link of the final step of the chain. -/
def ResponsePath.prev : ResponsePath → Option ResponsePath
  | .root _ _ => none
  | .child _ _ p => some p

/-- isArrayPath of src/context.ts: the key of the node is a number. -/
def isArrayPath (p : ResponsePath) : Bool :=
  match p.key with
  | .index _ => true
  | .name _ => false

/-- The string pushed for one visited step by the loop of buildPath. -/
def renderSeg : PathKey → String
  | .name s => s
  | .index i => "[" ++ toString i ++ "]"

/-- The segment list collected by the while loop of buildPath, leaf first. -/
def segsRev : ResponsePath → List String
  | .root k _ => [renderSeg k]
  | .child k _ p => renderSeg k :: segsRev p

/-- Array.prototype.join with separator ".". -/
def joinDot : List String → String
  | [] => ""
  | x :: xs => xs.foldl (fun acc s => acc ++ "." ++ s) x

/-- buildPath of src/context.ts: walk the chain, collect segments leaf first,
reverse, and join every pair of adjacent segments with ".". -/
def buildPath : Option ResponsePath → String
  | none => ""
  | some p => joinDot (segsRev p).reverse

/-- The key values along the chain, root first; identifies the tree position. -/
def keysOf : ResponsePath → List PathKey
  | .root k _ => [k]
  | .child k _ p => keysOf p ++ [k]

/-- Boolean test that the first key list is an initial segment of the second;
used to speak about ancestor and descendant tree positions. -/
def keyLe : List PathKey → List PathKey → Bool
  | [], _ => true
  | _ :: _, [] => false
  | a :: xs, b :: ys => decide (a = b) && keyLe xs ys

/-- The Map from path key to span handle hidden behind the SPANS symbol,
as an association list whose most recent write stands first. -/
abbrev Registry := List (String × Nat)

/-- Map.prototype.set: the new entry shadows any older entry of the same key. -/
def Registry.set (r : Registry) (k : String) (sid : Nat) : Registry := (k, sid) :: r

/-- Map.prototype.get: the most recent entry of the key, when one exists. -/
def Registry.get : Registry → String → Option Nat
  | [], _ => none
  | (k, sid) :: r, q => if k = q then some sid else Registry.get r q

/-- getSpanByPath of src/context.ts: when the node is array indexed the lookup
key is built from the prev node, otherwise from the node itself. -/
def getSpanByPath (r : Registry) (p : ResponsePath) : Option Nat :=
  Registry.get r (buildPath (if isArrayPath p then p.prev else some p))

/-- addSpan of src/context.ts: stores under the full key of info.path. -/
def addSpan (r : Registry) (sid : Nat) (p : ResponsePath) : Registry :=
  Registry.set r (buildPath (some p)) sid

/-- The host supplied request context: arbitrary host data plus the optional
registry attached by addContextHelpers (absent until the first attachment). -/
structure Ctx where
  host : Nat
  spans : Option Registry
deriving DecidableEq

/-- addContextHelpers of src/context.ts: a context that already carries the
helpers is returned as is, otherwise a fresh empty registry is attached. -/
def addContextHelpers (c : Ctx) : Ctx :=
  match c.spans with
  | some _ => c
  | none => { c with spans := some [] }

/-- Calling context.getSpanByPath: a TypeError when the helpers were never
attached (the method does not exist on the object), the lookup otherwise. -/
def ctxGetSpanByPath (c : Ctx) (p : ResponsePath) : Except Unit (Option Nat) :=
  match c.spans with
  | none => Except.error ()
  | some r => Except.ok (getSpanByPath r p)

/-- Calling context.addSpan: a TypeError when the helpers were never attached,
the registry write otherwise. -/
def ctxAddSpan (c : Ctx) (sid : Nat) (p : ResponsePath) : Except Unit Ctx :=
  match c.spans with
  | none => Except.error ()
  | some r => Except.ok { c with spans := some (addSpan r sid p) }

/-- The private requestSpan field of the extension instance. -/
structure ExtState where
  requestSpan : Option Nat
deriving DecidableEq

/-- One span handed out by the tracer: its handle, declared name, and the
handle of the span it was linked to (none for the request root). -/
structure SpanRec where
  sid : Nat
  name : String
  parentLink : Option Nat
deriving DecidableEq

/-- The whole observable state: the extension instance, the request context,
the tracer counter of fresh handles, the handles already ended, and the log of
spans started by the tracer. -/
structure TraceState where
  ext : ExtState
  ctx : Ctx
  nextSid : Nat
  ended : List Nat
  spansCreated : List SpanRec
deriving DecidableEq

/-- The data of one willResolveField invocation that the core reads: the
info.path chain, info.fieldName, and the alias of the first field node. -/
structure FieldVisit where
  path : ResponsePath
  fieldName : Option String
  fieldAlias : Option String
deriving DecidableEq

/-- getFieldName of src/index.ts: alias when present, else a non empty
fieldName, else the literal fallback. -/
def getFieldName (v : FieldVisit) : String :=
  match v.fieldAlias with
  | some a => a
  | none =>
    match v.fieldName with
    | some f => if f = "" then "field" else f
    | none => "field"

/-- span.end() on the handle. -/
def endSpan (s : TraceState) (sid : Nat) : TraceState :=
  { s with ended := sid :: s.ended }

/-- requestDidStart of src/index.ts, at the boolean value the configured
shouldTraceRequest predicate takes on this request: when false it returns
undefined at once, otherwise it starts the root span, stores it in the
requestSpan field, and returns the finish closure (the root handle here). -/
def requestDidStart (shouldTrace : Bool) (s : TraceState) : TraceState × Option Nat :=
  if shouldTrace then
    ({ s with
        nextSid := s.nextSid + 1,
        spansCreated := ⟨s.nextSid, "request", none⟩ :: s.spansCreated,
        ext := { requestSpan := some s.nextSid } }, some s.nextSid)
  else (s, none)

/-- The finish closure returned by requestDidStart: it only calls end() on the
root span it closed over. -/
def finishRequest (s : TraceState) (sid : Nat) : TraceState := endSpan s sid

/-- The traced tail of willResolveField: attach the helpers, resolve the parent
span (registry lookup of info.path.prev, else the request span), start the
field span linked to it, register it under the full path key, and return the
finish action carrying the new handle. -/
def startFieldSpan (s : TraceState) (v : FieldVisit) : TraceState × Except Unit (Option Nat) :=
  let c := addContextHelpers s.ctx
  let reg := c.spans.getD []
  let parentSpan : Option Nat :=
    match v.path.prev with
    | some pp => getSpanByPath reg pp
    | none => s.ext.requestSpan
  ({ s with
      ctx := { c with spans := some (addSpan reg s.nextSid v.path) },
      nextSid := s.nextSid + 1,
      spansCreated := ⟨s.nextSid, getFieldName v, parentSpan⟩ :: s.spansCreated },
   Except.ok (some s.nextSid))

/-- willResolveField of src/index.ts, with the configured field predicate
abstracted to its boolean value on the visit.  The guard reads, in order: the
requestSpan field, the predicate, and, when info.path.prev exists, the lookup
context.getSpanByPath(info.path.prev) evaluated before addContextHelpers ran,
so it throws when the context never received the helpers. -/
def willResolveField (pred : FieldVisit → Bool) (s : TraceState) (v : FieldVisit) :
    TraceState × Except Unit (Option Nat) :=
  match s.ext.requestSpan with
  | none => (s, Except.ok none)
  | some _ =>
    match pred v with
    | false => (s, Except.ok none)
    | true =>
      match v.path.prev with
      | none => startFieldSpan s v
      | some pp =>
        match ctxGetSpanByPath s.ctx pp with
        | Except.error _ => (s, Except.error ())
        | Except.ok none => (s, Except.ok none)
        | Except.ok (some _) => startFieldSpan s v

/-- The finish action returned by willResolveField for a span handle, at the
behavior the configured onFieldResolveFinish hook has on this invocation: none
models an unconfigured hook, some models the configured hook returning or
throwing.  The source runs the hook first and calls span.end() after it on the
same straight line, so a throw propagates before end() is reached. -/
def fieldFinish (hook : Option (Except Unit Unit)) (s : TraceState) (sid : Nat) :
    TraceState × Except Unit Unit :=
  match hook with
  | some (Except.error e) => (s, Except.error e)
  | some (Except.ok _) => (endSpan s sid, Except.ok ())
  | none => (endSpan s sid, Except.ok ())

/-- A sequence of field visits driven by the host; an exception thrown by one
visit leaves the builder state as it was (the guard throws before any write). -/
def execVisits (pred : FieldVisit → Bool) : TraceState → List FieldVisit → TraceState
  | s, [] => s
  | s, v :: vs => execVisits pred (willResolveField pred s v).1 vs

/-- The registry contents seen through the context, empty before attachment. -/
def registryOf (s : TraceState) : Registry := s.ctx.spans.getD []

/-- No span is registered under the key of the position of n or of any
descendant position of n. -/
def Suppressed (n : ResponsePath) (s : TraceState) : Prop :=
  ∀ q : ResponsePath, keyLe (keysOf n) (keysOf q) = true →
    Registry.get (registryOf s) (buildPath (some q)) = none

/-- A fresh extension instance and a fresh request context. -/
def initState : TraceState :=
  { ext := { requestSpan := none }, ctx := { host := 0, spans := none },
    nextSid := 0, ended := [], spansCreated := [] }

/- Basic facts about the path codec. -/

lemma keysOf_ne_nil (p : ResponsePath) : keysOf p ≠ [] := by
  cases p <;> simp [keysOf]

lemma keysOf_child (k : PathKey) (t : String) (pp : ResponsePath) :
    keysOf (ResponsePath.child k t pp) = keysOf pp ++ [k] := rfl

lemma keysOf_last (p : ResponsePath) : ∃ l, keysOf p = l ++ [p.key] := by
  cases p with
  | root k t => exact ⟨[], rfl⟩
  | child k t pp => exact ⟨keysOf pp, rfl⟩

lemma append_last_eq {l m : List PathKey} {a b : PathKey} (h : l ++ [a] = m ++ [b]) :
    a = b := by
  have h2 := congrArg (fun t : List PathKey => t.reverse.head?) h
  simpa using h2

lemma segsRev_eq (p : ResponsePath) : segsRev p = ((keysOf p).map renderSeg).reverse := by
  induction p with
  | root k t => rfl
  | child k t pp ih => simp [segsRev, keysOf, ih]

lemma buildPath_keys (p : ResponsePath) :
    buildPath (some p) = joinDot ((keysOf p).map renderSeg) := by
  simp [buildPath, segsRev_eq]

lemma joinDot_append (l : List String) (y : String) (h : l ≠ []) :
    joinDot (l ++ [y]) = joinDot l ++ "." ++ y := by
  cases l with
  | nil => exact absurd rfl h
  | cons a t => simp [joinDot, List.foldl_append]

lemma keyLe_refl (xs : List PathKey) : keyLe xs xs = true := by
  induction xs with
  | nil => rfl
  | cons a t ih => simp [keyLe, ih]

lemma keyLe_nil (xs : List PathKey) (h : keyLe xs [] = true) : xs = [] := by
  cases xs with
  | nil => rfl
  | cons a t => simp [keyLe] at h

lemma keyLe_concat (xs ys : List PathKey) (k : PathKey) (h : keyLe xs (ys ++ [k]) = true) :
    xs = ys ++ [k] ∨ keyLe xs ys = true := by
  induction ys generalizing xs with
  | nil =>
    cases xs with
    | nil => exact Or.inr rfl
    | cons a t =>
      simp only [List.nil_append, keyLe, Bool.and_eq_true, decide_eq_true_eq] at h
      obtain ⟨h1, h2⟩ := h
      have h3 := keyLe_nil t h2
      subst h1; subst h3
      exact Or.inl rfl
  | cons b ys2 ih =>
    cases xs with
    | nil => exact Or.inr rfl
    | cons a t =>
      simp only [List.cons_append, keyLe, Bool.and_eq_true, decide_eq_true_eq] at h
      obtain ⟨h1, h2⟩ := h
      subst h1
      rcases ih t h2 with he | hle
      · exact Or.inl (by rw [he]; rfl)
      · exact Or.inr (by simp [keyLe, hle])

/- Basic facts about the registry and the context helpers. -/

lemma get_set_self (r : Registry) (k : String) (sid : Nat) :
    Registry.get (Registry.set r k sid) k = some sid := by
  simp [Registry.set, Registry.get]

lemma lookup_after_add (r : Registry) (sid : Nat) (p : ResponsePath)
    (h : isArrayPath p = false) : getSpanByPath (addSpan r sid p) p = some sid := by
  simp [getSpanByPath, addSpan, h, Registry.set, Registry.get]

lemma addContextHelpers_spans (c : Ctx) :
    (addContextHelpers c).spans.getD [] = c.spans.getD [] := by
  cases h : c.spans <;> simp [addContextHelpers, h]

lemma addContextHelpers_isSome (c : Ctx) : ∃ r, (addContextHelpers c).spans = some r := by
  cases h : c.spans with
  | none => exact ⟨[], by simp [addContextHelpers, h]⟩
  | some r => exact ⟨r, by simp [addContextHelpers, h]⟩

lemma suppressed_of_no_reg (n : ResponsePath) (s : TraceState) (h : s.ctx.spans = none) :
    Suppressed n s := by
  intro q hq
  simp [registryOf, h, Registry.get]

/- Case equations of willResolveField. -/

lemma startFieldSpan_spans (s : TraceState) (v : FieldVisit) :
    (startFieldSpan s v).1.ctx.spans
      = some (addSpan ((addContextHelpers s.ctx).spans.getD []) s.nextSid v.path) := rfl

lemma startFieldSpan_snd (s : TraceState) (v : FieldVisit) :
    (startFieldSpan s v).2 = Except.ok (some s.nextSid) := rfl

lemma startFieldSpan_registry (s : TraceState) (v : FieldVisit) :
    registryOf (startFieldSpan s v).1
      = Registry.set (registryOf s) (buildPath (some v.path)) s.nextSid := by
  simp [registryOf, startFieldSpan_spans, addContextHelpers_spans, addSpan]

lemma wrf_no_root (pred : FieldVisit → Bool) (s : TraceState) (v : FieldVisit)
    (h : s.ext.requestSpan = none) :
    willResolveField pred s v = (s, Except.ok none) := by
  simp [willResolveField, h]

lemma wrf_pred_false (pred : FieldVisit → Bool) (s : TraceState) (v : FieldVisit) (r : Nat)
    (h1 : s.ext.requestSpan = some r) (h2 : pred v = false) :
    willResolveField pred s v = (s, Except.ok none) := by
  simp [willResolveField, h1, h2]

lemma wrf_top (pred : FieldVisit → Bool) (s : TraceState) (v : FieldVisit) (r : Nat)
    (h1 : s.ext.requestSpan = some r) (h2 : pred v = true) (h3 : v.path.prev = none) :
    willResolveField pred s v = startFieldSpan s v := by
  simp [willResolveField, h1, h2, h3]

lemma wrf_no_helpers (pred : FieldVisit → Bool) (s : TraceState) (v : FieldVisit) (r : Nat)
    (pp : ResponsePath) (h1 : s.ext.requestSpan = some r) (h2 : pred v = true)
    (h3 : v.path.prev = some pp) (h4 : s.ctx.spans = none) :
    willResolveField pred s v = (s, Except.error ()) := by
  simp [willResolveField, ctxGetSpanByPath, h1, h2, h3, h4]

lemma wrf_parent_missing (pred : FieldVisit → Bool) (s : TraceState) (v : FieldVisit)
    (r : Nat) (pp : ResponsePath) (reg : Registry) (h1 : s.ext.requestSpan = some r)
    (h2 : pred v = true) (h3 : v.path.prev = some pp) (h4 : s.ctx.spans = some reg)
    (h5 : getSpanByPath reg pp = none) :
    willResolveField pred s v = (s, Except.ok none) := by
  simp [willResolveField, ctxGetSpanByPath, h1, h2, h3, h4, h5]

lemma wrf_parent_found (pred : FieldVisit → Bool) (s : TraceState) (v : FieldVisit)
    (r : Nat) (pp : ResponsePath) (reg : Registry) (q : Nat)
    (h1 : s.ext.requestSpan = some r) (h2 : pred v = true) (h3 : v.path.prev = some pp)
    (h4 : s.ctx.spans = some reg) (h5 : getSpanByPath reg pp = some q) :
    willResolveField pred s v = startFieldSpan s v := by
  simp [willResolveField, ctxGetSpanByPath, h1, h2, h3, h4, h5]

lemma wrf_cases (pred : FieldVisit → Bool) (s : TraceState) (v : FieldVisit) :
    willResolveField pred s v = (s, Except.ok none) ∨
    willResolveField pred s v = (s, Except.error ()) ∨
    willResolveField pred s v = startFieldSpan s v := by
  cases hrs : s.ext.requestSpan with
  | none => exact Or.inl (wrf_no_root pred s v hrs)
  | some r =>
    cases hp : pred v with
    | false => exact Or.inl (wrf_pred_false pred s v r hrs hp)
    | true =>
      cases hpv : v.path.prev with
      | none => exact Or.inr (Or.inr (wrf_top pred s v r hrs hp hpv))
      | some pp =>
        cases hcs : s.ctx.spans with
        | none => exact Or.inr (Or.inl (wrf_no_helpers pred s v r pp hrs hp hpv hcs))
        | some reg =>
          cases hlk : getSpanByPath reg pp with
          | none => exact Or.inl (wrf_parent_missing pred s v r pp reg hrs hp hpv hcs hlk)
          | some q =>
            exact Or.inr (Or.inr (wrf_parent_found pred s v r pp reg q hrs hp hpv hcs hlk))

/- Suppression propagation: once no key at or below a named position n is
registered, a visit of any position at or below n cannot start a span, and no
visit of any other position can register a key at or below n (given that its
rendered key differs from every rendered key at or below n). -/

lemma step_suppressed (pred : FieldVisit → Bool) (n : ResponsePath) (s : TraceState)
    (w : FieldVisit) (hn : isArrayPath n = false) (hsup : Suppressed n s)
    (hpredw : keysOf w.path = keysOf n → pred w = false)
    (hdesc : keyLe (keysOf n) (keysOf w.path) = true) :
    willResolveField pred s w = (s, Except.ok none) ∨
      willResolveField pred s w = (s, Except.error ()) := by
  cases hrs : s.ext.requestSpan with
  | none => exact Or.inl (wrf_no_root pred s w hrs)
  | some r =>
    cases hp : pred w with
    | false => exact Or.inl (wrf_pred_false pred s w r hrs hp)
    | true =>
      have hne : keysOf w.path ≠ keysOf n := by
        intro he
        rw [hpredw he] at hp
        cases hp
      cases hw : w.path with
      | root k t =>
        exfalso
        have hk : keysOf w.path = [k] := by rw [hw]; rfl
        rw [hk] at hdesc
        rcases keyLe_concat (keysOf n) [] k hdesc with he | hnil
        · exact hne (by rw [hk, he]; rfl)
        · exact keysOf_ne_nil n (keyLe_nil _ hnil)
      | child k t pp =>
        have hpv : w.path.prev = some pp := by rw [hw]; rfl
        have hkw : keysOf w.path = keysOf pp ++ [k] := by rw [hw]; rfl
        have hle2 : keyLe (keysOf n) (keysOf pp) = true := by
          rw [hkw] at hdesc
          rcases keyLe_concat (keysOf n) (keysOf pp) k hdesc with he | hle
          · exact absurd (by rw [hkw, he] : keysOf w.path = keysOf n) hne
          · exact hle
        cases hcs : s.ctx.spans with
        | none => exact Or.inr (wrf_no_helpers pred s w r pp hrs hp hpv hcs)
        | some reg =>
          have hregof : registryOf s = reg := by simp [registryOf, hcs]
          have hlook : getSpanByPath reg pp = none := by
            unfold getSpanByPath
            cases hap : isArrayPath pp with
            | false =>
              simp only [hap, Bool.false_eq_true, if_false]
              rw [← hregof]
              exact hsup pp hle2
            | true =>
              cases hpp : pp with
              | root k2 t2 =>
                exfalso
                have hk2 : keysOf pp = [k2] := by rw [hpp]; rfl
                rw [hk2] at hle2
                rcases keyLe_concat (keysOf n) [] k2 hle2 with he | hnil
                · obtain ⟨l, hl⟩ := keysOf_last n
                  have hkey : n.key = k2 := append_last_eq (by rw [← hl, he])
                  cases k2 with
                  | name s2 => rw [hpp] at hap; simp [isArrayPath, ResponsePath.key] at hap
                  | index i => simp [isArrayPath, hkey] at hn
                · exact keysOf_ne_nil n (keyLe_nil _ hnil)
              | child k2 t2 qq =>
                have hpq : pp.prev = some qq := by rw [hpp]; rfl
                have hkpp : keysOf pp = keysOf qq ++ [k2] := by rw [hpp]; rfl
                have hleq : keyLe (keysOf n) (keysOf qq) = true := by
                  rw [hkpp] at hle2
                  rcases keyLe_concat (keysOf n) (keysOf qq) k2 hle2 with he | hle3
                  · exfalso
                    obtain ⟨l, hl⟩ := keysOf_last n
                    have hkey : n.key = k2 := append_last_eq (by rw [← hl, he])
                    cases k2 with
                    | name s2 => rw [hpp] at hap; simp [isArrayPath, ResponsePath.key] at hap
                    | index i => simp [isArrayPath, hkey] at hn
                  · exact hle3
                simp only [hap, if_true, ResponsePath.prev]
                rw [← hregof]
                exact hsup qq hleq
          exact Or.inl (wrf_parent_missing pred s w r pp reg hrs hp hpv hcs hlook)

lemma step_preserves (pred : FieldVisit → Bool) (n : ResponsePath) (s : TraceState)
    (w : FieldVisit) (hn : isArrayPath n = false) (hsup : Suppressed n s)
    (hpredw : keysOf w.path = keysOf n → pred w = false)
    (hinjw : keyLe (keysOf n) (keysOf w.path) = false →
      ∀ q : ResponsePath, keyLe (keysOf n) (keysOf q) = true →
        buildPath (some w.path) ≠ buildPath (some q)) :
    Suppressed n (willResolveField pred s w).1 := by
  cases hdesc : keyLe (keysOf n) (keysOf w.path) with
  | true =>
    rcases step_suppressed pred n s w hn hsup hpredw hdesc with h | h <;> rw [h] <;> exact hsup
  | false =>
    rcases wrf_cases pred s w with h | h | h
    · rw [h]; exact hsup
    · rw [h]; exact hsup
    · rw [h]
      intro q hq
      rw [startFieldSpan_registry]
      simp only [Registry.set, Registry.get, hinjw hdesc q hq, if_false]
      exact hsup q hq

lemma exec_preserves (pred : FieldVisit → Bool) (n : ResponsePath)
    (hn : isArrayPath n = false) :
    ∀ (vs : List FieldVisit) (s : TraceState), Suppressed n s →
      (∀ w ∈ vs, keysOf w.path = keysOf n → pred w = false) →
      (∀ w ∈ vs, keyLe (keysOf n) (keysOf w.path) = false →
        ∀ q : ResponsePath, keyLe (keysOf n) (keysOf q) = true →
          buildPath (some w.path) ≠ buildPath (some q)) →
      Suppressed n (execVisits pred s vs) := by
  intro vs
  induction vs with
  | nil => intro s hsup hpred hinj; exact hsup
  | cons v vs ih =>
    intro s hsup hpred hinj
    have h1 := step_preserves pred n s v hn hsup (hpred v (by simp)) (hinj v (by simp))
    exact ih _ h1 (fun w hw => hpred w (by simp [hw])) (fun w hw => hinj w (by simp [hw]))

/- Concrete inputs used by counterexamples and witnesses. -/

/-- The chain a, three, index 1, four of the integration schema. -/
def chain4 : ResponsePath :=
  ResponsePath.child (PathKey.name "four") "B"
    (ResponsePath.child (PathKey.index 1) "LB"
      (ResponsePath.child (PathKey.name "three") "A"
        (ResponsePath.root (PathKey.name "a") "Query")))

/-- A top level named node. -/
def nC : ResponsePath := ResponsePath.root (PathKey.name "a") "Query"

/-- A named node producing a list. -/
def pThree : ResponsePath := ResponsePath.root (PathKey.name "three") "A"

/-- The array indexed element node below pThree. -/
def pArr : ResponsePath := ResponsePath.child (PathKey.index 1) "B" pThree

/-- A visit of the top level node nC. -/
def vA : FieldVisit := { path := nC, fieldName := some "a", fieldAlias := none }

/-- A visit of a child field below nC. -/
def vmC : FieldVisit :=
  { path := ResponsePath.child (PathKey.name "b") "A" nC,
    fieldName := some "b", fieldAlias := none }

/-- A field predicate refusing nC by position. -/
def predC : FieldVisit → Bool := fun w => decide (keysOf w.path ≠ keysOf nC)

/-- The state right after a traced requestDidStart on a fresh instance. -/
def sReq : TraceState := (requestDidStart true initState).1

/-- The attached context holding one span under the key of nC. -/
def ctxAttached : Ctx := { host := 0, spans := some [("a", 5)] }

/- C1.  The registry round trip as claimed fails on array indexed nodes:
addSpan stores under the full key of the node while getSpanByPath strips the
index and consults the key of the prev node. -/

/-- C1 counterexample: after addSpan on the array indexed node pArr the span
sits in the registry under the full key of pArr, yet getSpanByPath on pArr
returns none rather than the stored span. -/
theorem registry_roundtrip_array_cex :
    Registry.get (addSpan [] 7 pArr) (buildPath (some pArr)) = some 7 ∧
    getSpanByPath (addSpan [] 7 pArr) pArr = none := ⟨rfl, rfl⟩

/-- C1 amended: for every registry and every node that is not array indexed,
getSpanByPath right after addSpan on the same node returns the stored span. -/
theorem registry_roundtrip_named (r : Registry) (sid : Nat) (p : ResponsePath)
    (h : isArrayPath p = false) : getSpanByPath (addSpan r sid p) p = some sid :=
  lookup_after_add r sid p h

/-- C1 witness: the amended round trip at a concrete named node. -/
theorem registry_roundtrip_named_witness :
    isArrayPath pThree = false ∧ getSpanByPath (addSpan [] 9 pThree) pThree = some 9 :=
  ⟨rfl, registry_roundtrip_named [] 9 pThree rfl⟩

/- C2.  The path key rendering joins every pair of adjacent segments with a
dot, bracketed indices included: the claimed form a.three[1].four is not
produced; the code produces a.three.[1].four. -/

/-- C2 counterexample: the chain a, three, 1, four renders with a dot before
the bracketed index, not in the claimed dotless form. -/
theorem path_render_dot_cex :
    buildPath (some chain4) = "a.three.[1].four" ∧
    buildPath (some chain4) ≠ "a.three[1].four" := ⟨rfl, by decide⟩

/-- C2 amended: every step, named or array indexed, is appended to the rendered
prev chain with a separating dot, so the example chain renders as
a.three.[1].four. -/
theorem path_render_join :
    (∀ (pp : ResponsePath) (k : PathKey) (t : String),
        buildPath (some (ResponsePath.child k t pp))
          = buildPath (some pp) ++ "." ++ renderSeg k) ∧
    buildPath (some chain4) = "a.three.[1].four" := by
  constructor
  · intro pp k t
    have hne : (keysOf pp).map renderSeg ≠ [] := by
      intro hcon
      exact keysOf_ne_nil pp (by simpa using hcon)
    rw [buildPath_keys, buildPath_keys, keysOf_child, List.map_append]
    exact joinDot_append _ _ hne
  · rfl

/- C3.  The finish action runs the onFieldResolveFinish hook first and calls
span.end() after it with no protection, so a throwing hook prevents closure. -/

/-- C3 counterexample: a traced field visit hands back span handle 1; invoking
its finish action with a throwing onFieldResolveFinish hook propagates the
exception and leaves the ended list empty, so span.end() never ran. -/
theorem finish_hook_throw_cex :
    (willResolveField (fun _ => true) sReq vA).2 = Except.ok (some 1) ∧
    (fieldFinish (some (Except.error ())) (willResolveField (fun _ => true) sReq vA).1 1).2
        = Except.error () ∧
    (fieldFinish (some (Except.error ())) (willResolveField (fun _ => true) sReq vA).1 1).1.ended
        = [] := ⟨rfl, rfl, rfl⟩

/-- C3 amended: the finish action closes the span on every exit path on which
the configured hook does not throw (hook absent, or hook returns); when the
hook throws, the exception propagates before span.end() is reached. -/
theorem finish_closes_span_no_throw (s : TraceState) (sid : Nat)
    (hook : Option (Except Unit Unit)) (h : ∀ e, hook ≠ some (Except.error e)) :
    fieldFinish hook s sid = (endSpan s sid, Except.ok ()) := by
  cases hook with
  | none => rfl
  | some r =>
    cases r with
    | ok u => rfl
    | error e => exact absurd rfl (h e)

/-- C3 witness: the amended closure at a concrete returning hook. -/
theorem finish_closes_span_no_throw_witness :
    (∀ e : Unit, (some (Except.ok ()) : Option (Except Unit Unit)) ≠ some (Except.error e)) ∧
    fieldFinish (some (Except.ok ())) initState 3 = (endSpan initState 3, Except.ok ()) :=
  ⟨fun e hcon => by simp at hcon,
   finish_closes_span_no_throw initState 3 (some (Except.ok ()))
     (fun e hcon => by simp at hcon)⟩

/- C4.  Suppression propagates: with no span registered at or below the named
position n and the field predicate false at n, a later visit of any position
at or below n starts no span and returns no finish action, whatever visits
happen in between (their rendered keys differing from the suppressed ones). -/

/-- C4: if shouldTraceFieldResolver is false at the named node n, no span is
registered at or below n, and the other visited paths render to keys distinct
from every key at or below n, then after any visit sequence a visit of a
descendant of n (n itself included) starts no span and registers no finish
action. -/
theorem suppression_propagates (pred : FieldVisit → Bool) (n : ResponsePath)
    (s0 : TraceState) (vs : List FieldVisit) (v : FieldVisit)
    (hn : isArrayPath n = false)
    (hsup : Suppressed n s0)
    (hpred : ∀ w, (w ∈ vs ∨ w = v) → keysOf w.path = keysOf n → pred w = false)
    (hinj : ∀ w ∈ vs, keyLe (keysOf n) (keysOf w.path) = false →
      ∀ q : ResponsePath, keyLe (keysOf n) (keysOf q) = true →
        buildPath (some w.path) ≠ buildPath (some q))
    (hv : keyLe (keysOf n) (keysOf v.path) = true) :
    (willResolveField pred (execVisits pred s0 vs) v).1.spansCreated
        = (execVisits pred s0 vs).spansCreated ∧
    ∀ sid, (willResolveField pred (execVisits pred s0 vs) v).2 ≠ Except.ok (some sid) := by
  have hsup2 := exec_preserves pred n hn vs s0 hsup (fun w hw => hpred w (Or.inl hw)) hinj
  rcases step_suppressed pred n (execVisits pred s0 vs) v hn hsup2
      (hpred v (Or.inr rfl)) hv with h | h <;>
    rw [h] <;> exact ⟨rfl, fun sid hcon => by simp at hcon⟩

/-- C4 witness: after a traced request, the predicate refuses the top level
node nC; the visit of nC then the visit of its child both stay untraced. -/
theorem suppression_propagates_witness :
    (isArrayPath nC = false ∧ keyLe (keysOf nC) (keysOf vmC.path) = true) ∧
    ((willResolveField predC (execVisits predC sReq [vA]) vmC).1.spansCreated
        = (execVisits predC sReq [vA]).spansCreated ∧
     ∀ sid, (willResolveField predC (execVisits predC sReq [vA]) vmC).2
        ≠ Except.ok (some sid)) :=
  ⟨⟨rfl, by decide⟩,
   suppression_propagates predC nC sReq [vA] vmC rfl
     (suppressed_of_no_reg nC sReq rfl)
     (fun w _ he => by simp [predC, he])
     (fun w hw hf => absurd hf (by simp at hw; subst hw; decide))
     (by decide)⟩

/- C5.  Root suppression implies full suppression: with shouldTraceRequest
false, requestDidStart returns undefined and leaves the state untouched, and
every later field visit on the instance is the identity and yields no span. -/

/-- C5: when shouldTraceRequest is false, requestDidStart returns undefined
without touching the state; with the requestSpan field still empty every
willResolveField call returns undefined and changes nothing, for every field
predicate and every visit sequence. -/
theorem root_suppression_total (s0 : TraceState) (h : s0.ext.requestSpan = none) :
    requestDidStart false s0 = (s0, none) ∧
    (∀ pred v, willResolveField pred s0 v = (s0, Except.ok none)) ∧
    (∀ pred vs, execVisits pred s0 vs = s0) := by
  refine ⟨by simp [requestDidStart], fun pred v => wrf_no_root pred s0 v h,
    fun pred vs => ?_⟩
  induction vs with
  | nil => rfl
  | cons v vs ih =>
    show execVisits pred (willResolveField pred s0 v).1 vs = s0
    rw [wrf_no_root pred s0 v h]
    exact ih

/-- C5 witness: the suppressed request on a fresh instance. -/
theorem root_suppression_total_witness :
    requestDidStart false initState = (initState, none) ∧
    (∀ pred v, willResolveField pred initState v = (initState, Except.ok none)) ∧
    (∀ pred vs, execVisits pred initState vs = initState) :=
  root_suppression_total initState rfl

/- C6.  The index stripping asymmetry: lookup on an array indexed node uses
the key of the prev node, registration always uses the full key of the node. -/

/-- C6: for an array indexed node, getSpanByPath consults the registry under
the key rendered from the prev node, while addSpan stores the span under the
full key of the node itself, bracketed index included. -/
theorem index_lookup_asymmetry (r : Registry) (sid : Nat) (p pp : ResponsePath)
    (hidx : isArrayPath p = true) (hpv : p.prev = some pp) :
    getSpanByPath r p = Registry.get r (buildPath (some pp)) ∧
    Registry.get (addSpan r sid p) (buildPath (some p)) = some sid := by
  constructor
  · simp [getSpanByPath, hidx, hpv]
  · simp [addSpan, Registry.set, Registry.get]

/-- C6 witness: the asymmetry at the concrete element node pArr. -/
theorem index_lookup_asymmetry_witness :
    (isArrayPath pArr = true ∧ pArr.prev = some pThree) ∧
    (getSpanByPath [("three", 5)] pArr
        = Registry.get [("three", 5)] (buildPath (some pThree)) ∧
     Registry.get (addSpan [("three", 5)] 6 pArr) (buildPath (some pArr)) = some 6) :=
  ⟨⟨rfl, rfl⟩, index_lookup_asymmetry [("three", 5)] 6 pArr pThree rfl rfl⟩

/- C7.  The path codec is total and deterministic: a Lean function, empty on
the absent chain, and depending only on the key sequence of the chain. -/

/-- C7: buildPath of the absent chain is the empty string, and the rendered
key of a chain depends only on its key values in order: chains with equal key
sequences (whatever their typenames) render equal. -/
theorem pathkey_total_deterministic :
    buildPath none = "" ∧
    ∀ p q : ResponsePath, keysOf p = keysOf q → buildPath (some p) = buildPath (some q) := by
  refine ⟨rfl, fun p q h => ?_⟩
  rw [buildPath_keys, buildPath_keys, h]

/-- C7 witness: two structurally identical chains with different typenames
render to the same key. -/
theorem pathkey_total_deterministic_witness :
    keysOf (ResponsePath.child (PathKey.name "b") "T1" (ResponsePath.root (PathKey.name "a") "T0"))
      = keysOf (ResponsePath.child (PathKey.name "b") "X1" (ResponsePath.root (PathKey.name "a") "X0")) ∧
    buildPath (some (ResponsePath.child (PathKey.name "b") "T1" (ResponsePath.root (PathKey.name "a") "T0")))
      = buildPath (some (ResponsePath.child (PathKey.name "b") "X1" (ResponsePath.root (PathKey.name "a") "X0"))) :=
  ⟨rfl, pathkey_total_deterministic.2 _ _ rfl⟩

/- C8.  Attachment of the context helpers is idempotent and preserves the
registry contents. -/

/-- C8: writing a span through a context after the first attachment, a second
addContextHelpers call returns the context unchanged, and the stored span is
still retrievable through the twice attached context. -/
theorem attach_idempotent (c c2 : Ctx) (sid : Nat) (p : ResponsePath)
    (hp : isArrayPath p = false)
    (h : ctxAddSpan (addContextHelpers c) sid p = Except.ok c2) :
    addContextHelpers c2 = c2 ∧
    ctxGetSpanByPath (addContextHelpers c2) p = Except.ok (some sid) := by
  obtain ⟨r, hr⟩ := addContextHelpers_isSome c
  simp only [ctxAddSpan, hr, Except.ok.injEq] at h
  subst h
  constructor
  · rfl
  · simp [addContextHelpers, ctxGetSpanByPath, lookup_after_add r sid p hp]

/-- C8 witness: the idempotent attachment on a concrete fresh context. -/
theorem attach_idempotent_witness :
    (isArrayPath nC = false ∧
     ctxAddSpan (addContextHelpers { host := 0, spans := none }) 5 nC
        = Except.ok ctxAttached) ∧
    (addContextHelpers ctxAttached = ctxAttached ∧
     ctxGetSpanByPath (addContextHelpers ctxAttached) nC = Except.ok (some 5)) :=
  ⟨⟨rfl, rfl⟩, attach_idempotent { host := 0, spans := none } ctxAttached 5 nC rfl rfl⟩

/- C9.  The guard of willResolveField evaluates context.getSpanByPath before
addContextHelpers runs, so it throws exactly when the request is traced, the
predicate holds, the node has a prev link, and the context never received the
helpers. -/

/-- C9: willResolveField throws a TypeError out of its guard if and only if
the requestSpan field is set, the field predicate holds on the visit, the
visited node has a prev link, and the helpers were never attached to the
context; in particular the call is safe whenever the context already carries
the helpers or the node is top level. -/
theorem guard_method_missing (pred : FieldVisit → Bool) (s : TraceState) (v : FieldVisit) :
    (willResolveField pred s v).2 = Except.error () ↔
      (s.ext.requestSpan ≠ none ∧ pred v = true ∧ v.path.prev ≠ none ∧
        s.ctx.spans = none) := by
  cases hrs : s.ext.requestSpan with
  | none => rw [wrf_no_root pred s v hrs]; simp
  | some r =>
    cases hp : pred v with
    | false => rw [wrf_pred_false pred s v r hrs hp]; simp [hp]
    | true =>
      cases hpv : v.path.prev with
      | none => rw [wrf_top pred s v r hrs hp hpv]; simp [startFieldSpan_snd, hpv]
      | some pp =>
        cases hcs : s.ctx.spans with
        | none =>
          rw [wrf_no_helpers pred s v r pp hrs hp hpv hcs]
          simp [hrs, hp, hpv, hcs]
        | some reg =>
          cases hlk : getSpanByPath reg pp with
          | none => rw [wrf_parent_missing pred s v r pp reg hrs hp hpv hcs hlk]; simp [hcs]
          | some q =>
            rw [wrf_parent_found pred s v r pp reg q hrs hp hpv hcs hlk]
            simp [startFieldSpan_snd, hcs]

/-- C9 witness: on a traced request whose context never received the helpers,
visiting a node with a prev link throws. -/
theorem guard_method_missing_witness :
    (willResolveField (fun _ => true) sReq vmC).2 = Except.error () :=
  (guard_method_missing (fun _ => true) sReq vmC).mpr
    ⟨by decide, rfl, by decide, rfl⟩

/- C10.  The request finish closure only ends the root span; the extension
instance keeps holding the ended root span, so the root span guard of every
later willResolveField call still passes. -/

/-- C10: the finish closure of a traced request only adds the root handle to
the ended spans, leaving every other field (the requestSpan field included)
unchanged; afterwards the instance still holds the ended root span and a later
visit of a top level node accepted by the predicate passes the guard and
starts a span. -/
theorem request_finish_frame (s0 s1 : TraceState) (r : Nat)
    (h : requestDidStart true s0 = (s1, some r)) :
    finishRequest s1 r = { s1 with ended := r :: s1.ended } ∧
    (finishRequest s1 r).ext.requestSpan = some r ∧
    r ∈ (finishRequest s1 r).ended ∧
    (∀ pred v, pred v = true → v.path.prev = none →
      (willResolveField pred (finishRequest s1 r) v).2 = Except.ok (some s1.nextSid)) := by
  simp only [requestDidStart, if_true, Prod.mk.injEq, Option.some.injEq] at h
  obtain ⟨hs1, hr⟩ := h
  subst hs1
  subst hr
  refine ⟨rfl, rfl, by simp [finishRequest, endSpan], fun pred v hp hpv => ?_⟩
  rw [wrf_top pred _ v s0.nextSid rfl hp hpv, startFieldSpan_snd]
  rfl

/-- C10 witness: the finished request on a fresh instance still holds root
span 0 ended, and a later accepted top level visit opens span 1. -/
theorem request_finish_frame_witness :
    requestDidStart true initState = (sReq, some 0) ∧
    (finishRequest sReq 0 = { sReq with ended := 0 :: sReq.ended } ∧
     (finishRequest sReq 0).ext.requestSpan = some 0 ∧
     0 ∈ (finishRequest sReq 0).ended ∧
     (∀ pred v, pred v = true → v.path.prev = none →
       (willResolveField pred (finishRequest sReq 0) v).2 = Except.ok (some sReq.nextSid))) :=
  ⟨rfl, request_finish_frame initState sReq 0 rfl⟩

end ApolloOC
